import Mathlib

/-!
Shallow embedding of `src/main/main.cpp` (filament_dryer): the ADC
continuous-sampling drain loop, the batch averaging, and the calibration
transform of `app_main`, together with the completion-interrupt callback.

Modelling conventions:
  * C `uint32_t` arithmetic is `Nat` with an explicit `% 2 ^ 32`.
  * The 12-bit `type1.data` bitfield of `adc_digi_output_data_t` is an
    explicit `% 4096` extraction from the stored sample word.
  * `float` arithmetic is modelled exactly over `ℚ`, with the decimal
    literals of the source taken at their exact decimal values.
  * The integer division `avg /= reading_count` with `reading_count = 0`
    is undefined behaviour in C++ and an arithmetic fault on the target;
    the model records it in a `crashed` flag that aborts the loop.
-/

namespace FilamentDryer

/-- `constexpr uint32_t kAdcBufferSize = 1024` (main.cpp line 13). -/
def kAdcBufferSize : Nat := 1024

/-- `constexpr uint32_t kAdcSampleRate = 20'000` (main.cpp line 14). -/
def kAdcSampleRate : Nat := 20000

/-- `constexpr uint32_t kAdcSamplesToRead = 100` (main.cpp line 15). -/
def kAdcSamplesToRead : Nat := 100

/-- `SOC_ADC_DIGI_RESULT_BYTES`: size in bytes of one
`adc_digi_output_data_t` sample in the TYPE1 output format used by the
source (a 16-bit word holding a 12-bit `data` field and a 4-bit
`channel` field), i.e. 2 bytes. -/
def socAdcDigiResultBytes : Nat := 2

/-- `constexpr uint32_t kAdcSampleReadSize = kAdcSamplesToRead * SOC_ADC_DIGI_RESULT_BYTES` (main.cpp line 16). -/
def kAdcSampleReadSize : Nat := kAdcSamplesToRead * socAdcDigiResultBytes

/-- `constexpr auto kAdcBitWidth = ADC_BITWIDTH_10` (main.cpp line 17); the
SDK enum `ADC_BITWIDTH_10` has numeric value 10. -/
def kAdcBitWidth : Nat := 10

/-- The modulus of C `uint32_t` arithmetic. -/
def u32 : Nat := 2 ^ 32

/-- `reading.type1.data`: the low 12 bits of a stored sample word. -/
def sampleData (word : Nat) : Nat := word % 4096

/-- The `std::accumulate` of main.cpp lines 94-97: starting from
`uint32_t{}`, add each reading's `type1.data` field in `uint32_t`
arithmetic, over the given sample words. -/
def batchSum (samples : List Nat) : Nat :=
  samples.foldl (fun accum reading => (accum + sampleData reading) % u32) 0

/-- One logged line's numeric content: the batch average `avg` (uint32),
the corrected code `adc_corr`, the temperature `temp`, and the `voltage`
(floats, modelled over `ℚ`). -/
structure Emission where
  avg : Nat
  adc_corr : ℚ
  temp : ℚ
  voltage : ℚ
deriving DecidableEq, Repr

/-- The calibration block of `app_main` (main.cpp lines 101-110) applied to
the computed batch average:

    const float avg2 = avg * avg;
    const float avg3 = avg2 * avg;
    const float adc_corr = 40.4597f + 0.976323f*avg + 0.000163748f*avg2 - 1.76614e-7f*avg3;
    const float adc_corr2 = adc_corr * adc_corr;
    const float temp = 129.85f - 0.150499*adc_corr + 0.0000343308f*adc_corr2;
    const float voltage = adc_corr * 3.3f / (1 << kAdcBitWidth);
-/
def calibrate (avg : Nat) : Emission :=
  let a : ℚ := avg
  let avg2 : ℚ := a * a
  let avg3 : ℚ := avg2 * a
  let adc_corr : ℚ := 40.4597 + 0.976323 * a + 0.000163748 * avg2 - 1.76614e-7 * avg3
  let adc_corr2 : ℚ := adc_corr * adc_corr
  let temp : ℚ := 129.85 - 0.150499 * adc_corr + 0.0000343308 * adc_corr2
  let voltage : ℚ := adc_corr * (3.3 : ℚ) / ((1 <<< kAdcBitWidth : Nat) : ℚ)
  ⟨avg, adc_corr, temp, voltage⟩

/-- One result of `adc_continuous_read` (main.cpp line 91), as injected by
the environment: `ESP_OK` together with the reported byte count and the
buffer contents it leaves in `readings`, `ESP_ERR_TIMEOUT`, or any other
`esp_err_t` code. -/
inductive ReadResult where
  | ok (ret_bytes : Nat) (buf : List Nat)
  | timeout
  | err (code : Nat)
deriving DecidableEq, Repr

/-- Externally visible steps of one pass of the inner drain loop: a call to
`adc_continuous_read`, an `ESP_LOGI` emission of a calibrated reading, and
a `vTaskDelay(1000 / portTICK_PERIOD_MS)` suspension. -/
inductive Event where
  | read
  | emit
  | delay
deriving DecidableEq, BEq, Repr

/-- Outcome of one DRAINING episode of the inner `while (1)` loop of
`app_main` (main.cpp lines 87-118): the batches drained (each the prefix of
the buffer that `std::accumulate` visits), the calibrated readings emitted,
the event trace, the part of the injected script left unconsumed when the
loop `break`s back to `ulTaskNotifyTake` (the WAITING state), and whether
the division-by-zero fault was reached. -/
structure DrainResult where
  drained : List (List Nat)
  emissions : List Emission
  events : List Event
  rest : List ReadResult
  crashed : Bool
deriving DecidableEq, Repr

/-- The inner `while (1)` drain loop of `app_main` (main.cpp lines 87-118),
run against an injected script of `adc_continuous_read` results:

  * `ESP_OK`: `reading_count = ret_bytes / sizeof(readings[0])`; sum the
    first `reading_count` readings; `avg /= reading_count` (an arithmetic
    fault when `reading_count == 0` — the model stops with `crashed`);
    otherwise calibrate, log, `vTaskDelay(1000 ms)`, and loop.
  * `ESP_ERR_TIMEOUT`: `break` — re-enter WAITING with the script's
    remainder unconsumed.
  * any other code: no branch matches; the loop body ends and the loop
    retries the read. -/
def drainLoop : List ReadResult → DrainResult
  | [] => ⟨[], [], [], [], false⟩
  | ReadResult.ok ret_bytes buf :: rest =>
    let reading_count := ret_bytes / socAdcDigiResultBytes
    if reading_count = 0 then
      ⟨[buf.take reading_count], [], [Event.read], rest, true⟩
    else
      let batch := buf.take reading_count
      let avg := batchSum batch / reading_count
      let r := drainLoop rest
      ⟨batch :: r.drained, calibrate avg :: r.emissions,
        Event.read :: Event.emit :: Event.delay :: r.events, r.rest, r.crashed⟩
  | ReadResult.timeout :: rest => ⟨[], [], [Event.read], rest, false⟩
  | ReadResult.err _ :: rest =>
    let r := drainLoop rest
    ⟨r.drained, r.emissions, Event.read :: r.events, r.rest, r.crashed⟩

/-- A well-formed script: each pending batch delivered as an `ESP_OK` read
whose byte count is `SOC_ADC_DIGI_RESULT_BYTES` bytes per sample, followed
by the `ESP_ERR_TIMEOUT` that signals buffer exhaustion, followed by
whatever the environment would answer after the loop has re-entered
WAITING. -/
def script (bs : List (List Nat)) (extra : List ReadResult) : List ReadResult :=
  bs.map (fun b => ReadResult.ok (socAdcDigiResultBytes * b.length) b)
    ++ ReadResult.timeout :: extra

/-- Written from the claim's wording, for refutation purposes only: a trace
inserts the fixed interval into drainage when some `delay` occurs before a
later `read` (i.e. between the reads that drain still-pending batches). -/
def delayBeforeSomeRead : List Event → Bool
  | [] => false
  | Event.delay :: rest => rest.contains Event.read || delayBeforeSomeRead rest
  | _ :: rest => delayBeforeSomeRead rest

/-- Actions available to code running in the completion-interrupt context.
The alphabet distinguishes the one action the callback performs from the
actions the spec forbids there. -/
inductive ISRAction where
  | notifyFromISR
  | io
  | allocation
  | logging
deriving DecidableEq, Repr

/-- `continuous_adc_done_callback` (main.cpp lines 23-30): call
`vTaskNotifyGiveFromISR(main_task, &mustYield)` and return
`mustYield == pdTRUE`. The parameter `mustYield` is the value FreeRTOS
stores through the pointer: `pdTRUE` exactly when the notified task has a
higher priority than the task interrupted by the ISR. The model returns
the list of ISR actions performed together with the callback's return
value. -/
def continuous_adc_done_callback (mustYield : Bool) : List ISRAction × Bool :=
  ([ISRAction.notifyFromISR], mustYield)

/-! ## Helper lemmas -/

/-- The `uint32_t` accumulation never wraps while the running total stays
under `2 ^ 32`: starting from `accum`, folding a list of sample words whose
data fields are 12-bit values adds up exactly. -/
lemma foldl_u32_eq_add_sum (samples : List Nat) (accum : Nat)
    (hc : ∀ c ∈ samples, c < 4096)
    (hb : accum + 4096 * samples.length ≤ u32) :
    samples.foldl (fun accum reading => (accum + sampleData reading) % u32) accum
      = accum + samples.sum := by
  induction samples generalizing accum with
  | nil => simp
  | cons c cs ih =>
    have hc0 : c < 4096 := hc c (List.mem_cons_self c cs)
    have hdata : sampleData c = c := Nat.mod_eq_of_lt hc0
    have hlt : accum + c < u32 := by
      have : accum + 4096 * (cs.length + 1) ≤ u32 := by simpa [List.length_cons] using hb
      omega
    have hstep : (accum + sampleData c) % u32 = accum + c := by
      rw [hdata]; exact Nat.mod_eq_of_lt hlt
    have hb' : (accum + c) + 4096 * cs.length ≤ u32 := by
      have : accum + 4096 * (cs.length + 1) ≤ u32 := by simpa [List.length_cons] using hb
      omega
    have ih' := ih (accum + c) (fun x hx => hc x (List.mem_cons_of_mem c hx)) hb'
    simp only [List.foldl_cons, hstep, ih', List.sum_cons]
    omega

/-- For a batch within the buffer capacity whose sample words are 12-bit
values, the `uint32_t` batch sum equals the exact mathematical sum. -/
lemma batchSum_eq_sum (samples : List Nat)
    (hc : ∀ c ∈ samples, c < 4096) (hlen : samples.length ≤ kAdcSamplesToRead) :
    batchSum samples = samples.sum := by
  have hb : 0 + 4096 * samples.length ≤ u32 := by
    have : 4096 * samples.length ≤ 4096 * kAdcSamplesToRead :=
      Nat.mul_le_mul_left 4096 hlen
    have hcap : 4096 * kAdcSamplesToRead ≤ u32 := by norm_num [kAdcSamplesToRead, u32]
    omega
  simpa using foldl_u32_eq_add_sum samples 0 hc hb

/-- The non-linearity correction polynomial of main.cpp line 104 is
monotonically non-decreasing on the interval `[0, 1023]` of rationals. -/
lemma adc_corr_poly_mono (x y : ℚ) (hx : 0 ≤ x) (hxy : x ≤ y) (hy : y ≤ 1023) :
    (40.4597 : ℚ) + 0.976323 * x + 0.000163748 * (x*x) - 1.76614e-7 * ((x*x)*x)
      ≤ 40.4597 + 0.976323 * y + 0.000163748 * (y*y) - 1.76614e-7 * ((y*y)*y) := by
  have hy0 : 0 ≤ y := hx.trans hxy
  have hx1023 : x ≤ 1023 := hxy.trans hy
  have hxx : x * x ≤ 1023 * 1023 := by nlinarith
  have hyy : y * y ≤ 1023 * 1023 := by nlinarith
  have hxy2 : x * y ≤ 1023 * 1023 := by nlinarith
  have hQ : (0:ℚ) ≤ 0.976323 + 0.000163748 * (x + y) - 1.76614e-7 * (x*x + x*y + y*y) := by
    linarith [add_nonneg hx hy0]
  have key : ((40.4597 : ℚ) + 0.976323 * y + 0.000163748 * (y*y) - 1.76614e-7 * ((y*y)*y))
      - (40.4597 + 0.976323 * x + 0.000163748 * (x*x) - 1.76614e-7 * ((x*x)*x))
      = (y - x) * (0.976323 + 0.000163748 * (x + y) - 1.76614e-7 * (x*x + x*y + y*y)) := by
    ring
  have hprod := mul_nonneg (sub_nonneg.mpr hxy) hQ
  linarith

/-- Evaluation of one DRAINING episode on a well-formed script: every
pending batch is drained in order, each is averaged, calibrated and emitted
with the fixed delay after it, and the loop re-enters WAITING exactly at
the timeout, leaving the remainder of the script unconsumed. -/
lemma drainLoop_script (bs : List (List Nat)) (extra : List ReadResult)
    (h : ∀ b ∈ bs, b ≠ []) :
    drainLoop (script bs extra) =
      ⟨bs, bs.map (fun b => calibrate (batchSum b / b.length)),
        (bs.map fun _ => [Event.read, Event.emit, Event.delay]).flatten ++ [Event.read],
        extra, false⟩ := by
  induction bs with
  | nil => simp [script, drainLoop]
  | cons b bs ih =>
    have hb : b ≠ [] := h b (List.mem_cons_self b bs)
    have hcount : socAdcDigiResultBytes * b.length / socAdcDigiResultBytes = b.length :=
      Nat.mul_div_cancel_left b.length (by norm_num [socAdcDigiResultBytes])
    have hlen : ¬ b.length = 0 := by simpa [List.length_eq_zero] using hb
    have ih' := ih (fun x hx => h x (List.mem_cons_of_mem b hx))
    simp only [script, List.map_cons, List.cons_append] at ih' ⊢
    simp [drainLoop, hcount, hlen, ih', List.take_length]

/-! ## Claim theorems -/

/-- C1: the claim says an `ESP_OK` read with zero bytes must be skipped
with no emission and no arithmetic exception. The code has no such guard:
with `ret_bytes = 0` the loop computes `reading_count = 0` and executes
`avg /= reading_count`, an integer division by zero — the model reaches
the `crashed` state after the single read, emits nothing, and the rest of
the script is never consumed. This evaluates the code at the failing
input. -/
theorem c1_empty_ok_read_divides_by_zero :
    drainLoop [ReadResult.ok 0 [], ReadResult.timeout] =
      ⟨[[]], [], [Event.read], [ReadResult.timeout], true⟩ := rfl

/-- C2 counterexample: the claim says any read status that is neither Ok
nor Timeout terminates the program with a fatal diagnostic and never
continues the drain loop. On the injected script with the unexpected
status code 3, the code silently continues: it retries the read, drains
the following batch, emits it, and re-enters WAITING — no termination and
no fault occur. -/
theorem c2_counterexample :
    drainLoop [ReadResult.err 3, ReadResult.ok 2 [7], ReadResult.timeout] =
      ⟨[[7]], [calibrate 7],
        [Event.read, Event.read, Event.emit, Event.delay, Event.read], [], false⟩ := rfl

/-- C2 amended: every read status that is neither Ok nor Timeout is
silently ignored — the drain loop performs the read, discards the status,
and retries; any run of unexpected statuses leaves the loop's drained
batches, emissions, final state and fault flag unchanged, adding only the
retried reads to the trace. -/
theorem c2_unexpected_status_silently_retried (cs : List Nat) (rest : List ReadResult) :
    drainLoop (cs.map ReadResult.err ++ rest) =
      { drainLoop rest with
        events := cs.map (fun _ => Event.read) ++ (drainLoop rest).events } := by
  induction cs with
  | nil => simp
  | cons c cs ih => simp [drainLoop, ih]

/-- C3 counterexample: the claim says the fixed 1000 ms interval is never
inserted between the reads that drain still-pending batches. With two
pending batches the code's trace is read, emit, delay, read, emit, delay,
read: a delay separates the first read from the read that drains the
still-pending second batch. -/
theorem c3_counterexample :
    delayBeforeSomeRead (drainLoop (script [[5, 5], [7, 7]] [])).events = true ∧
    (drainLoop (script [[5, 5], [7, 7]] [])).events =
      [Event.read, Event.emit, Event.delay, Event.read, Event.emit, Event.delay,
        Event.read] ∧
    (drainLoop (script [[5, 5], [7, 7]] [])).drained = [[5, 5], [7, 7]] :=
  ⟨rfl, rfl, rfl⟩

/-- C3 amended: the cadence controller suspends the loop for the fixed
interval after every emitted CalibratedReading, including between the
reads that drain still-pending batches: for every sequence of pending
batches all of them are drained, but with the fixed interval inserted
after each drained batch (one batch per interval), not only after the
last. -/
theorem c3_delay_after_every_drained_batch (bs : List (List Nat))
    (extra : List ReadResult) (h : ∀ b ∈ bs, b ≠ []) :
    (drainLoop (script bs extra)).events =
      (bs.map fun _ => [Event.read, Event.emit, Event.delay]).flatten ++ [Event.read] ∧
    (drainLoop (script bs extra)).drained = bs := by
  rw [drainLoop_script bs extra h]
  exact ⟨rfl, rfl⟩

/-- C3 witness: the amended theorem applied to two concrete pending
batches. -/
theorem c3_witness :
    (∀ b ∈ [[5, 5], [7, 7]], b ≠ ([] : List Nat)) ∧
    ((drainLoop (script [[5, 5], [7, 7]] [])).events =
      (([[5, 5], [7, 7]] : List (List Nat)).map
        fun _ => [Event.read, Event.emit, Event.delay]).flatten ++ [Event.read] ∧
    (drainLoop (script [[5, 5], [7, 7]] [])).drained = [[5, 5], [7, 7]]) :=
  ⟨by decide, c3_delay_after_every_drained_batch [[5, 5], [7, 7]] [] (by decide)⟩

/-- C4: the calibration transform computes the corrected code as the
stated degree-3 polynomial of the average, the temperature as the stated
degree-2 polynomial of the corrected code, and the voltage as
correctedCode × 3.3 / fullScale with fullScale = 1 << bitWidth =
2 ^ bitWidth = 1024 for the configured 10-bit width. -/
theorem c4_calibration_formulas :
    (∀ a : Nat, (calibrate a).adc_corr =
      40.4597 + 0.976323 * (a : ℚ) + 0.000163748 * (a : ℚ) ^ 2
        - 1.76614e-7 * (a : ℚ) ^ 3) ∧
    (∀ a : Nat, (calibrate a).temp =
      129.85 - 0.150499 * (calibrate a).adc_corr
        + 0.0000343308 * (calibrate a).adc_corr ^ 2) ∧
    (∀ a : Nat, (calibrate a).voltage = (calibrate a).adc_corr * (3.3 : ℚ) / 1024) ∧
    (1 <<< kAdcBitWidth : Nat) = 2 ^ kAdcBitWidth ∧ (2 : Nat) ^ kAdcBitWidth = 1024 := by
  refine ⟨fun a => ?_, fun a => ?_, fun a => ?_, by decide, by decide⟩
  · simp only [calibrate]
    ring
  · simp only [calibrate]
    ring
  · have hfs : ((1 <<< kAdcBitWidth : Nat) : ℚ) = 1024 := by
      norm_num [kAdcBitWidth, Nat.shiftLeft_eq]
    simp only [calibrate, hfs]

/-- C5: for every sequence of nonempty pending batches within the buffer
capacity whose sample words are 12-bit values, each emitted reading is
calibrated from the truncating integer mean of that batch's raw codes
alone — `floor(sum / n)` computed fresh per batch, with no state carried
across batches. -/
theorem c5_running_average_is_truncating_mean (bs : List (List Nat))
    (h0 : ∀ b ∈ bs, b ≠ [])
    (h1 : ∀ b ∈ bs, b.length ≤ kAdcSamplesToRead)
    (h2 : ∀ b ∈ bs, ∀ c ∈ b, c < 4096) :
    (drainLoop (script bs [])).emissions =
      bs.map (fun b => calibrate (b.sum / b.length)) ∧
    ∀ b ∈ bs, (calibrate (b.sum / b.length)).avg = b.sum / b.length := by
  constructor
  · rw [drainLoop_script bs [] h0]
    exact List.map_congr_left fun b hb => by
      rw [batchSum_eq_sum b (h2 b hb) (h1 b hb)]
  · exact fun b _ => rfl

/-- C5 witness: the theorem applied to two concrete batches; the second
batch's mean is the truncating 7 = floor(22/3) independent of the first. -/
theorem c5_witness :
    ((∀ b ∈ [[4, 5], [7, 7, 8]], b ≠ ([] : List Nat)) ∧
      (∀ b ∈ [[4, 5], [7, 7, 8]], List.length b ≤ kAdcSamplesToRead) ∧
      (∀ b ∈ [[4, 5], [7, 7, 8]], ∀ c ∈ b, c < 4096)) ∧
    ((drainLoop (script [[4, 5], [7, 7, 8]] [])).emissions =
      ([[4, 5], [7, 7, 8]] : List (List Nat)).map
        (fun b => calibrate (b.sum / b.length)) ∧
    ∀ b ∈ [[4, 5], [7, 7, 8]],
      (calibrate (b.sum / b.length)).avg = b.sum / b.length) :=
  ⟨⟨by decide, by decide, by decide⟩,
    c5_running_average_is_truncating_mean [[4, 5], [7, 7, 8]]
      (by decide) (by decide) (by decide)⟩

/-- C6: over the valid 10-bit ADC code range 0..1023, the voltage computed
by the calibration transform is monotonically non-decreasing in the
average: the correction polynomial is non-decreasing there and the
remaining factor 3.3 / 1024 is a fixed positive scale. -/
theorem c6_voltage_monotone (a1 a2 : Nat) (h12 : a1 ≤ a2) (h1023 : a2 ≤ 1023) :
    (calibrate a1).voltage ≤ (calibrate a2).voltage := by
  have hx : (0 : ℚ) ≤ (a1 : ℚ) := by positivity
  have hxy : (a1 : ℚ) ≤ (a2 : ℚ) := by exact_mod_cast h12
  have hy : (a2 : ℚ) ≤ 1023 := by exact_mod_cast h1023
  have hm := adc_corr_poly_mono (a1 : ℚ) (a2 : ℚ) hx hxy hy
  have hfs : ((1 <<< kAdcBitWidth : Nat) : ℚ) = 1024 := by
    norm_num [kAdcBitWidth, Nat.shiftLeft_eq]
  simp only [calibrate, hfs]
  linarith

/-- C6 witness: the theorem applied at the concrete averages 100 and
1023. -/
theorem c6_witness :
    100 ≤ 1023 ∧ 1023 ≤ 1023 ∧ (calibrate 100).voltage ≤ (calibrate 1023).voltage :=
  ⟨by decide, by decide, c6_voltage_monotone 100 1023 (by decide) (by decide)⟩

/-- C7: for every injected script of nonempty available batches followed by
Timeout/Empty (and anything after it), one DRAINING episode drains every
batch in order, emits one calibrated reading per batch, and re-enters
WAITING exactly at the Timeout, leaving the rest of the script unread; in
particular, on a spurious wake (zero pending batches) the single read
returns Timeout and the loop returns to WAITING with no emission. -/
theorem c7_drain_completeness (bs : List (List Nat)) (extra : List ReadResult)
    (h : ∀ b ∈ bs, b ≠ []) :
    drainLoop (script bs extra) =
      ⟨bs, bs.map (fun b => calibrate (batchSum b / b.length)),
        (bs.map fun _ => [Event.read, Event.emit, Event.delay]).flatten ++ [Event.read],
        extra, false⟩ :=
  drainLoop_script bs extra h

/-- C7 witness: the theorem applied to a spurious wake (no pending batches,
single read, no emission, script remainder untouched) and to two concrete
pending batches drained in order. -/
theorem c7_witness :
    ((∀ b ∈ ([] : List (List Nat)), b ≠ []) ∧
      drainLoop (script [] [ReadResult.err 0]) =
        ⟨[], [], [Event.read], [ReadResult.err 0], false⟩) ∧
    ((∀ b ∈ [[1], [2, 3]], b ≠ ([] : List Nat)) ∧
      drainLoop (script [[1], [2, 3]] []) =
        ⟨[[1], [2, 3]], [calibrate 1, calibrate 2],
          [Event.read, Event.emit, Event.delay, Event.read, Event.emit, Event.delay,
            Event.read], [], false⟩) :=
  ⟨⟨by decide, by exact c7_drain_completeness [] [ReadResult.err 0] (by decide)⟩,
    ⟨by decide, by exact c7_drain_completeness [[1], [2, 3]] [] (by decide)⟩⟩

/-- C8 counterexample: the claim says a byte count that is not a multiple
of the per-sample size is treated as a fatal protocol violation. With
`ret_bytes = 3` (not a multiple of the 2-byte sample size) the code
computes `reading_count = 3 / 2 = 1`, proceeds with the truncated batch,
emits a calibrated reading and re-enters WAITING normally — nothing fatal
happens. -/
theorem c8_counterexample :
    ¬ (socAdcDigiResultBytes ∣ 3) ∧
    drainLoop [ReadResult.ok 3 [7, 9], ReadResult.timeout] =
      ⟨[[7]], [calibrate 7], [Event.read, Event.emit, Event.delay, Event.read], [],
        false⟩ :=
  ⟨by decide, rfl⟩

/-- C8 amended: a reported byte count is silently truncated by the integer
division `reading_count = ret_bytes / sizeof(readings[0])`: whenever that
quotient is nonzero the loop proceeds with the first `reading_count`
samples of the buffer and continues normally; no check of the remainder
and no fatal path exist. -/
theorem c8_nonintegral_bytes_truncated (ret_bytes : Nat) (buf : List Nat)
    (rest : List ReadResult) (h : ret_bytes / socAdcDigiResultBytes ≠ 0) :
    drainLoop (ReadResult.ok ret_bytes buf :: rest) =
      ⟨buf.take (ret_bytes / socAdcDigiResultBytes) :: (drainLoop rest).drained,
        calibrate (batchSum (buf.take (ret_bytes / socAdcDigiResultBytes))
            / (ret_bytes / socAdcDigiResultBytes)) :: (drainLoop rest).emissions,
        Event.read :: Event.emit :: Event.delay :: (drainLoop rest).events,
        (drainLoop rest).rest, (drainLoop rest).crashed⟩ := by
  simp [drainLoop, h]

/-- C8 witness: the amended theorem at the concrete non-integral byte count
3 with a two-sample buffer: one sample is processed, the remainder byte is
ignored. -/
theorem c8_witness :
    3 / socAdcDigiResultBytes ≠ 0 ∧
    drainLoop [ReadResult.ok 3 [7, 9]] =
      ⟨[[7]], [calibrate 7], [Event.read, Event.emit, Event.delay], [], false⟩ :=
  ⟨by decide, by exact c8_nonintegral_bytes_truncated 3 [7, 9] [] (by decide)⟩

/-- C9: the completion interrupt callback performs exactly one action — the
`vTaskNotifyGiveFromISR` signal to the consumer task — and returns
`mustYield == pdTRUE`, the flag FreeRTOS sets exactly when the notified
task has higher priority than the interrupted one; no I/O, allocation or
logging action appears in its action trace. -/
theorem c9_callback_only_signals (mustYield : Bool) :
    continuous_adc_done_callback mustYield = ([ISRAction.notifyFromISR], mustYield) ∧
    (∀ a ∈ (continuous_adc_done_callback mustYield).1, a = ISRAction.notifyFromISR) ∧
    (continuous_adc_done_callback mustYield).2 = mustYield :=
  ⟨rfl, by simp [continuous_adc_done_callback], rfl⟩

/-- C10: for every batch within the 100-sample buffer capacity whose raw
codes fit the 12-bit sample field, the `uint32_t` accumulation equals the
exact mathematical sum — it never wraps, since even 100 × 4095 is far
below 2^32. -/
theorem c10_sum_no_overflow (b : List Nat)
    (h1 : b.length ≤ kAdcSamplesToRead) (h2 : ∀ c ∈ b, c ≤ 4095) :
    batchSum b = b.sum ∧ kAdcSamplesToRead * 4095 < u32 := by
  refine ⟨batchSum_eq_sum b (fun c hc => ?_) h1, by norm_num [kAdcSamplesToRead, u32]⟩
  have := h2 c hc
  omega

/-- C10 witness: the theorem applied to a concrete batch of maximal
codes. -/
theorem c10_witness :
    (List.length [4095, 4095, 100] ≤ kAdcSamplesToRead ∧
      ∀ c ∈ [4095, 4095, 100], c ≤ 4095) ∧
    (batchSum [4095, 4095, 100] = List.sum [4095, 4095, 100] ∧
      kAdcSamplesToRead * 4095 < u32) :=
  ⟨⟨by decide, by decide⟩, c10_sum_no_overflow [4095, 4095, 100] (by decide) (by decide)⟩

end FilamentDryer
